import Mathlib

/-!
# Verification of `Foam::liquidMixtureProperties` (OpenFOAM-2.3.x)

Shallow embedding of the liquid-mixture property aggregator declared in
`src/thermophysicalModels/properties/liquidMixtureProperties/liquidMixtureProperties.H`.
Scalars are modelled as exact rationals (`ℚ`); the repository under `src/`
contains only the class declaration (the header), so every method body is
modelled from the specification (`spec.md`), faithful to its words.  Fallible
operations return `Except mixtureError`.
-/

namespace OpenFOAM

/-- Modelled from the spec (section 7, error taxonomy): the three error kinds
surfaced by the aggregator.  `configurationError` at construction,
`dimensionMismatch` when a composition vector's length differs from the
number of components, `convergence` when the boiling-point inversion fails
to bracket or to converge. -/
inductive mixtureError where
  | configurationError
  | dimensionMismatch
  | convergence
deriving DecidableEq

instance {ε α : Type} [DecidableEq ε] [DecidableEq α] : DecidableEq (Except ε α) :=
  fun a b =>
    match a, b with
    | Except.ok x, Except.ok y =>
        if h : x = y then isTrue (by rw [h])
        else isFalse (fun hc => h (by cases hc; rfl))
    | Except.ok _, Except.error _ => isFalse (fun hc => Except.noConfusion hc)
    | Except.error _, Except.ok _ => isFalse (fun hc => Except.noConfusion hc)
    | Except.error x, Except.error y =>
        if h : x = y then isTrue (by rw [h])
        else isFalse (fun hc => h (by cases hc; rfl))

/-- Modelled from the spec (section 6, collaborator interface): one pure
liquid component's property model.  The per-component property models are
external collaborators; the aggregator only queries the functions of this
interface: `density(p,T)`, `vaporPressure(p,T)`, `latentHeat(p,T)`,
`heatCapacity(p,T)`, `surfaceTension(p,T)`, `viscosity(p,T)`,
`thermalConductivity(p,T)`, `diffusivity(p,T)`, `molecularWeight()`,
`criticalTemperature()`, `criticalPressure()`, `criticalVolume()`,
`tripleTemperature()`, `acentricFactor()`.  Field names follow the query
names used by the aggregator's source (`W`, `Tc`, `Pc`, `Vc`, `Zc`, `Tt`,
`omega`, `rho`, `pv`, `hl`, `Cp`, `sigma`, `mu`, `K`, `D`). -/
structure liquidProperties where
  W : ℚ
  Tc : ℚ
  Pc : ℚ
  Vc : ℚ
  Zc : ℚ
  Tt : ℚ
  omega : ℚ
  rho : ℚ → ℚ → ℚ
  pv : ℚ → ℚ → ℚ
  hl : ℚ → ℚ → ℚ
  Cp : ℚ → ℚ → ℚ
  sigma : ℚ → ℚ → ℚ
  mu : ℚ → ℚ → ℚ
  K : ℚ → ℚ → ℚ
  D : ℚ → ℚ → ℚ

/-- Modelled from the spec (section 4.2, viscosity rule): the viscosity
mixing rule takes the mole-fraction-weighted mean of `ln(mu_i)` and
exponentiates.  The real-valued transcendental pair (`exp`, `ln`) has no
exact rational realisation, so it is passed in as an abstract pair of
functions; theorems that need `exp (log q) = q` state it as a hypothesis. -/
structure MathOps where
  exp : ℚ → ℚ
  log : ℚ → ℚ

/-- The mixture aggregator, from the header (lines 75-139): an ordered list
of component names and a parallel ordered list of pure-component property
models, with the documented invariant that the two lists have equal length. -/
structure liquidMixtureProperties where
  components : List String
  properties : List liquidProperties
  sameLen : components.length = properties.length

namespace liquidMixtureProperties

/-- From the header (lines 135-139): the number of liquids in the mixture. -/
def size (m : liquidMixtureProperties) : Nat :=
  m.components.length

/-- Mole-fraction-weighted sum of a per-component scalar: the shared shape of
the linear mixing rules of spec section 4.2. -/
def molarSum (x : List ℚ) (props : List liquidProperties)
    (f : liquidProperties → ℚ) : ℚ :=
  (List.zipWith (fun xi li => xi * f li) x props).sum

/-- Modelled from the spec: mean molecular weight, the mole-fraction-weighted
arithmetic mean of component molecular weights (unguarded body). -/
def Wraw (m : liquidMixtureProperties) (x : List ℚ) : ℚ :=
  molarSum x m.properties (fun li => li.W)

/-- Modelled from the spec: mass fractions from mole fractions,
`Y_i = X_i * W_i / sum_j (X_j * W_j)` (unguarded body). -/
def Yraw (m : liquidMixtureProperties) (x : List ℚ) : List ℚ :=
  List.zipWith (fun xi li => xi * li.W / m.Wraw x) x m.properties

/-- Modelled from the spec: mole fractions from mass fractions,
`X_i = (Y_i / W_i) / sum_j (Y_j / W_j)` (unguarded body). -/
def Xraw (m : liquidMixtureProperties) (y : List ℚ) : List ℚ :=
  List.zipWith
    (fun yi li =>
      yi / li.W / (List.zipWith (fun yj lj => yj / lj.W) y m.properties).sum)
    y m.properties

/-- Modelled from the spec: mixture density by mole-fraction-weighted
molar-volume mixing — invert the weighted sum of `W_i / rho_i`, scaled back
by the mixture molecular weight (unguarded body). -/
def rhoRaw (m : liquidMixtureProperties) (p T : ℚ) (x : List ℚ) : ℚ :=
  m.Wraw x / (List.zipWith (fun xi li => xi * li.W / li.rho p T) x m.properties).sum

/-- Modelled from the spec: mixture vapour pressure, the Raoult-law-style
linear mixing `sum_i x_i * pv_i(p,T)` (unguarded body). -/
def pvRaw (m : liquidMixtureProperties) (p T : ℚ) (x : List ℚ) : ℚ :=
  molarSum x m.properties (fun li => li.pv p T)

/-- Modelled from the spec: mixture latent heat, the mass-fraction-weighted
arithmetic mean, the mass fractions converted from `x` via `Y(x)` internally
(unguarded body). -/
def hlRaw (m : liquidMixtureProperties) (p T : ℚ) (x : List ℚ) : ℚ :=
  (List.zipWith (fun yi li => yi * li.hl p T) (m.Yraw x) m.properties).sum

/-- Modelled from the spec: mixture heat capacity, the mass-fraction-weighted
arithmetic mean, the mass fractions converted from `x` via `Y(x)` internally
(unguarded body). -/
def CpRaw (m : liquidMixtureProperties) (p T : ℚ) (x : List ℚ) : ℚ :=
  (List.zipWith (fun yi li => yi * li.Cp p T) (m.Yraw x) m.properties).sum

/-- Modelled from the spec: mixture surface tension, the
mole-fraction-weighted arithmetic mean (unguarded body). -/
def sigmaRaw (m : liquidMixtureProperties) (p T : ℚ) (x : List ℚ) : ℚ :=
  molarSum x m.properties (fun li => li.sigma p T)

/-- Modelled from the spec: mixture viscosity, the exponential of the
mole-fraction-weighted mean of `ln(mu_i)` (unguarded body). -/
def muRaw (E : MathOps) (m : liquidMixtureProperties) (p T : ℚ) (x : List ℚ) : ℚ :=
  E.exp ((List.zipWith (fun xi li => xi * E.log (li.mu p T)) x m.properties).sum)

/-- Modelled from the spec: mixture thermal conductivity by the method of Li,
a mole-fraction-weighted pairwise-interaction rule with a cross term for
every ordered pair using the harmonic-mean interaction conductivity
`K_ij = 2 / (1/K_i + 1/K_j)` (unguarded body). -/
def Kraw (m : liquidMixtureProperties) (p T : ℚ) (x : List ℚ) : ℚ :=
  let xk := List.zipWith (fun xi li => (xi, li.K p T)) x m.properties
  (xk.map (fun a => (xk.map (fun b => a.1 * b.1 * (2 / (1 / a.2 + 1 / b.2)))).sum)).sum

/-- Modelled from the spec: mixture diffusivity, combining the per-component
diffusivities via the same mole-fraction weighting family as the neighbouring
linear rules (unguarded body). -/
def Draw (m : liquidMixtureProperties) (p T : ℚ) (x : List ℚ) : ℚ :=
  molarSum x m.properties (fun li => li.D p T)

/-- Modelled from the spec: mixture critical temperature, the
mole-fraction-weighted mean of the component critical temperatures
(unguarded body). -/
def TcRaw (m : liquidMixtureProperties) (x : List ℚ) : ℚ :=
  molarSum x m.properties (fun li => li.Tc)

/-- Modelled from the spec: pseudocritical temperature by Kay's rule, the
mole-fraction-weighted arithmetic mean of critical temperatures
(unguarded body). -/
def TpcRaw (m : liquidMixtureProperties) (x : List ℚ) : ℚ :=
  molarSum x m.properties (fun li => li.Tc)

/-- Universal gas constant [J/(kmol K)], the scale constant of the
pseudocritical-pressure estimate. -/
def RR : ℚ := 8314

/-- Modelled from the spec: pseudocritical pressure by the modified
Prausnitz-Gunn correlation — a weighted combination of the critical
compressibility proxy, the pseudocritical temperature and the weighted
critical volume, producing a pressure estimate
`RR * (sum x_i Zc_i) * Tpc(x) / (sum x_i Vc_i)` (unguarded body). -/
def PpcRaw (m : liquidMixtureProperties) (x : List ℚ) : ℚ :=
  RR * molarSum x m.properties (fun li => li.Zc) * m.TpcRaw x
    / molarSum x m.properties (fun li => li.Vc)

/-- Modelled from the spec: pseudo triple-point temperature, the
mole-fraction-weighted mean of the component triple-point temperatures
(unguarded body). -/
def TptRaw (m : liquidMixtureProperties) (x : List ℚ) : ℚ :=
  molarSum x m.properties (fun li => li.Tt)

/-- Modelled from the spec: mixture acentric factor, the
mole-fraction-weighted arithmetic mean (unguarded body). -/
def omegaRaw (m : liquidMixtureProperties) (x : List ℚ) : ℚ :=
  molarSum x m.properties (fun li => li.omega)

/-- Modelled from the spec (sections 3 and 7): every mixing-rule operation
first checks that the composition vector has length exactly `N` and raises
`DimensionMismatchError` otherwise; this guard wraps an unguarded body. -/
def guardDim (m : liquidMixtureProperties) (x : List ℚ) {α : Type}
    (body : α) : Except mixtureError α :=
  if x.length = m.size then Except.ok body else Except.error .dimensionMismatch

/-- Mean molecular weight from mole fractions (header lines 171-173). -/
def W (m : liquidMixtureProperties) (x : List ℚ) : Except mixtureError ℚ :=
  m.guardDim x (m.Wraw x)

/-- Mass fractions from mole fractions (header lines 175-176). -/
def Y (m : liquidMixtureProperties) (x : List ℚ) : Except mixtureError (List ℚ) :=
  m.guardDim x (m.Yraw x)

/-- Mole fractions from mass fractions (header lines 178-179). -/
def X (m : liquidMixtureProperties) (y : List ℚ) : Except mixtureError (List ℚ) :=
  m.guardDim y (m.Xraw y)

/-- Mixture density (header lines 181-187). -/
def rho (m : liquidMixtureProperties) (p T : ℚ) (x : List ℚ) : Except mixtureError ℚ :=
  m.guardDim x (m.rhoRaw p T x)

/-- Mixture vapour pressure (header lines 189-195). -/
def pv (m : liquidMixtureProperties) (p T : ℚ) (x : List ℚ) : Except mixtureError ℚ :=
  m.guardDim x (m.pvRaw p T x)

/-- Mixture latent heat (header lines 197-203). -/
def hl (m : liquidMixtureProperties) (p T : ℚ) (x : List ℚ) : Except mixtureError ℚ :=
  m.guardDim x (m.hlRaw p T x)

/-- Mixture heat capacity (header lines 205-211). -/
def Cp (m : liquidMixtureProperties) (p T : ℚ) (x : List ℚ) : Except mixtureError ℚ :=
  m.guardDim x (m.CpRaw p T x)

/-- Mixture surface tension (header lines 213-219). -/
def sigma (m : liquidMixtureProperties) (p T : ℚ) (x : List ℚ) : Except mixtureError ℚ :=
  m.guardDim x (m.sigmaRaw p T x)

/-- Mixture viscosity (header lines 221-227). -/
def mu (E : MathOps) (m : liquidMixtureProperties) (p T : ℚ) (x : List ℚ) :
    Except mixtureError ℚ :=
  m.guardDim x (muRaw E m p T x)

/-- Mixture thermal conductivity, Li's method (header lines 229-236). -/
def K (m : liquidMixtureProperties) (p T : ℚ) (x : List ℚ) : Except mixtureError ℚ :=
  m.guardDim x (m.Kraw p T x)

/-- Mixture diffusivity (header lines 238-243). -/
def D (m : liquidMixtureProperties) (p T : ℚ) (x : List ℚ) : Except mixtureError ℚ :=
  m.guardDim x (m.Draw p T x)

/-- Mixture critical temperature (header lines 141-142). -/
def Tc (m : liquidMixtureProperties) (x : List ℚ) : Except mixtureError ℚ :=
  m.guardDim x (m.TcRaw x)

/-- Pseudocritical temperature, Kay's rule (header lines 148-149). -/
def Tpc (m : liquidMixtureProperties) (x : List ℚ) : Except mixtureError ℚ :=
  m.guardDim x (m.TpcRaw x)

/-- Pseudocritical pressure, modified Prausnitz-Gunn (header lines 151-152). -/
def Ppc (m : liquidMixtureProperties) (x : List ℚ) : Except mixtureError ℚ :=
  m.guardDim x (m.PpcRaw x)

/-- Pseudo triple-point temperature (header lines 154-155). -/
def Tpt (m : liquidMixtureProperties) (x : List ℚ) : Except mixtureError ℚ :=
  m.guardDim x (m.TptRaw x)

/-- Mixture acentric factor (header lines 157-158). -/
def omega (m : liquidMixtureProperties) (x : List ℚ) : Except mixtureError ℚ :=
  m.guardDim x (m.omegaRaw x)

/-- Modelled from the spec (section 4.4): the fixed relative tolerance of the
boiling-point inversion — the residual `pv(p,T,x) - p` must be brought below
this fraction of the target pressure. -/
def pvTol (p : ℚ) : ℚ := p / 10000

/-- Modelled from the spec (section 4.4): the iteration budget of the
boiling-point inversion. -/
def pvMaxIter : Nat := 100

/-- Modelled from the spec (section 4.4): the bounded bisection iteration of
the boiling-point inversion.  Each step halves the bracket; the current
midpoint is returned once the residual is within tolerance; when the
iteration budget is exhausted the operation fails with `ConvergenceError` —
no out-of-bracket or fallback temperature is silently returned. -/
def bisectPv (m : liquidMixtureProperties) (p : ℚ) (x : List ℚ) :
    Nat → ℚ → ℚ → Except mixtureError ℚ
  | 0, _, _ => Except.error .convergence
  | n + 1, Tlo, Thi =>
      if |m.pvRaw p ((Tlo + Thi) / 2) x - p| < pvTol p then
        Except.ok ((Tlo + Thi) / 2)
      else if m.pvRaw p ((Tlo + Thi) / 2) x - p ≤ 0 then
        m.bisectPv p x n ((Tlo + Thi) / 2) Thi
      else
        m.bisectPv p x n Tlo ((Tlo + Thi) / 2)

/-- Modelled from the spec (section 4.4): boiling-point inversion (header
lines 144-146).  Establishes a bracket from the pseudo triple-point
temperature (lower seed) and the mixture critical temperature (upper seed);
if the target pressure does not lie strictly inside the vapour pressures at
the two seeds, no valid bracket exists and the operation fails with
`ConvergenceError`; otherwise the bounded bisection runs. -/
def pvInvert (m : liquidMixtureProperties) (p : ℚ) (x : List ℚ) :
    Except mixtureError ℚ :=
  if x.length = m.size then
    if m.pvRaw p (m.TptRaw x) x < p ∧ p < m.pvRaw p (m.TcRaw x) x then
      m.bisectPv p x pvMaxIter (m.TptRaw x) (m.TcRaw x)
    else Except.error .convergence
  else Except.error .dimensionMismatch

/-- Modelled from the spec (section 4.1, Copy): the copy constructor (header
line 98) produces an aggregator with the same identifier list and
independently-owned clones of each component model; in a value-semantics
embedding this preserves both lists. -/
def copyCtor (m : liquidMixtureProperties) : liquidMixtureProperties :=
  { components := m.components, properties := m.properties, sameLen := m.sameLen }

/-- From the header (lines 100-107): `clone()` returns a new instance built
by the copy constructor from `*this`. -/
def clone (m : liquidMixtureProperties) : liquidMixtureProperties :=
  m.copyCtor

end liquidMixtureProperties

/-- A concrete pure-component model on which the theorems are exercised at
closed inputs: constant properties, vapour pressure equal to the temperature,
and critical data satisfying `RR * Zc * Tc / Vc = Pc`. -/
def lq1 : liquidProperties :=
  { W := 2, Tc := 2, Pc := 4, Vc := 8314, Zc := 2, Tt := 0, omega := 3
    rho := fun _ _ => 3, pv := fun _ T => T, hl := fun _ _ => 4, Cp := fun _ _ => 5
    sigma := fun _ _ => 6, mu := fun _ _ => 11, K := fun _ _ => 7, D := fun _ _ => 9 }

/-- A second concrete pure-component model with distinct values. -/
def lq2 : liquidProperties :=
  { W := 1, Tc := 4, Pc := 8, Vc := 8314, Zc := 1, Tt := 1, omega := 5
    rho := fun _ _ => 5, pv := fun _ T => 3 * T, hl := fun _ _ => 6, Cp := fun _ _ => 7
    sigma := fun _ _ => 8, mu := fun _ _ => 13, K := fun _ _ => 10, D := fun _ _ => 12 }

/-- A concrete single-component mixture. -/
def m1 : liquidMixtureProperties := ⟨["A"], [lq1], rfl⟩

/-- A concrete two-component mixture. -/
def m2 : liquidMixtureProperties := ⟨["A", "B"], [lq1, lq2], rfl⟩

/-- The identity pair as a concrete instance of the abstract (exp, log);
it satisfies the round-trip law `exp (log q) = q` everywhere. -/
def mathOpsId : MathOps := ⟨fun q => q, fun q => q⟩

/-- The single-component mixture (`N = 1`) built over one pure-component
model, as in spec section 8. -/
def single (l : liquidProperties) : liquidMixtureProperties := ⟨["A"], [l], rfl⟩

/-- The two-component mixture built over a pair of pure-component models. -/
def two (l1 l2 : liquidProperties) : liquidMixtureProperties :=
  ⟨["A", "B"], [l1, l2], rfl⟩

namespace liquidMixtureProperties

theorem guardDim_ok {α : Type} (m : liquidMixtureProperties) (x : List ℚ) (b : α)
    (h : x.length = m.size) : m.guardDim x b = Except.ok b := by
  simp [guardDim, h]

theorem guardDim_err {α : Type} (m : liquidMixtureProperties) (x : List ℚ) (b : α)
    (h : x.length ≠ m.size) : m.guardDim x b = Except.error .dimensionMismatch := by
  simp [guardDim, h]

theorem bisectPv_ok_tol (m : liquidMixtureProperties) (p : ℚ) (x : List ℚ) :
    ∀ (n : Nat) (Tlo Thi T : ℚ), m.bisectPv p x n Tlo Thi = Except.ok T →
      |m.pvRaw p T x - p| < pvTol p := by
  intro n
  induction n with
  | zero =>
      intro Tlo Thi T h
      simp [bisectPv] at h
  | succ k ih =>
      intro Tlo Thi T h
      rw [bisectPv] at h
      split at h
      · rename_i hc
        cases h
        exact hc
      · split at h
        · exact ih _ _ _ h
        · exact ih _ _ _ h

theorem bisectPv_step (m : liquidMixtureProperties) (p : ℚ) (x : List ℚ)
    (n : Nat) (Tlo Thi : ℚ)
    (h : |m.pvRaw p ((Tlo + Thi) / 2) x - p| < pvTol p) :
    m.bisectPv p x (n + 1) Tlo Thi = Except.ok ((Tlo + Thi) / 2) := by
  rw [bisectPv, if_pos h]

theorem pvInvert_bracket (m : liquidMixtureProperties) (p : ℚ) (x : List ℚ)
    (h1 : x.length = m.size)
    (h2 : m.pvRaw p (m.TptRaw x) x < p ∧ p < m.pvRaw p (m.TcRaw x) x) :
    m.pvInvert p x = m.bisectPv p x pvMaxIter (m.TptRaw x) (m.TcRaw x) := by
  rw [pvInvert, if_pos h1, if_pos h2]

end liquidMixtureProperties

open liquidMixtureProperties

/-- C1: for every pressure `p` and composition `x`, whenever the
boiling-point inversion `pvInvert(p, x)` returns a temperature `T`, the
mixture vapour pressure at `T` exists and differs from `p` by less than the
solver tolerance: `pvInvert` is a right-inverse of `pv` at fixed `p`, `x`
up to the tolerance. -/
theorem pvInvert_residual_lt_tol (m : liquidMixtureProperties) (p : ℚ)
    (x : List ℚ) (T : ℚ) (h : m.pvInvert p x = Except.ok T) :
    ∃ q, m.pv p T x = Except.ok q ∧ |q - p| < pvTol p := by
  rw [pvInvert] at h
  split at h
  · split at h
    · exact ⟨m.pvRaw p T x, guardDim_ok _ _ _ (by assumption),
        bisectPv_ok_tol m p x _ _ _ _ h⟩
    · exact Except.noConfusion h
  · exact Except.noConfusion h

/-- Witness for C1: on the concrete single-component mixture `m1` with the
vapour pressure equal to the temperature, `pvInvert 1 [1]` returns `T = 1`,
and the returned temperature reproduces the target pressure within
tolerance. -/
theorem pvInvert_residual_lt_tol_witness :
    m1.pvInvert 1 [1] = Except.ok 1 ∧
      ∃ q, m1.pv 1 1 [1] = Except.ok q ∧ |q - 1| < pvTol 1 := by
  have e1 : m1.TptRaw [1] = 0 := by
    norm_num [TptRaw, molarSum, m1, lq1]
  have e2 : m1.TcRaw [1] = 2 := by
    norm_num [TcRaw, molarSum, m1, lq1]
  have e3 : ∀ T : ℚ, m1.pvRaw 1 T [1] = T := by
    intro T
    norm_num [pvRaw, molarSum, m1, lq1]
  have h : m1.pvInvert 1 [1] = Except.ok 1 := by
    rw [pvInvert_bracket m1 1 [1] (by norm_num [m1, size])
      (by rw [e1, e2, e3, e3]; norm_num)]
    rw [e1, e2]
    rw [show pvMaxIter = 99 + 1 from rfl]
    rw [bisectPv_step m1 1 [1] 99 0 2 (by rw [e3]; norm_num [pvTol])]
    norm_num
  exact ⟨h, pvInvert_residual_lt_tol m1 1 [1] 1 h⟩

/-- C2: for every pressure `p` and composition `x` of the right length for
which no valid temperature bracket exists — the target pressure does not lie
strictly between the mixture vapour pressures at the lower seed (pseudo
triple point) and the upper seed (mixture critical temperature) — the
inversion fails with `ConvergenceError` and returns no temperature. -/
theorem pvInvert_no_bracket_convergence (m : liquidMixtureProperties)
    (p : ℚ) (x : List ℚ) (h1 : x.length = m.size)
    (h2 : ¬(m.pvRaw p (m.TptRaw x) x < p ∧ p < m.pvRaw p (m.TcRaw x) x)) :
    m.pvInvert p x = Except.error .convergence := by
  rw [pvInvert, if_pos h1, if_neg h2]

/-- Witness for C2: on the concrete mixture `m1`, the target pressure `5`
exceeds the vapour pressure at the upper bracket seed (`2`), so no bracket
exists and `pvInvert` fails with `ConvergenceError`. -/
theorem pvInvert_no_bracket_convergence_witness :
    ([1] : List ℚ).length = m1.size ∧
      ¬(m1.pvRaw 5 (m1.TptRaw [1]) [1] < 5 ∧
          5 < m1.pvRaw 5 (m1.TcRaw [1]) [1]) ∧
      m1.pvInvert 5 [1] = Except.error .convergence := by
  have h1 : ([1] : List ℚ).length = m1.size := by norm_num [m1, size]
  have h2 : ¬(m1.pvRaw 5 (m1.TptRaw [1]) [1] < 5 ∧
      5 < m1.pvRaw 5 (m1.TcRaw [1]) [1]) := by
    norm_num [pvRaw, TcRaw, TptRaw, molarSum, m1, lq1]
  exact ⟨h1, h2, pvInvert_no_bracket_convergence m1 5 [1] h1 h2⟩

/-- C3: for every pressure `p`, temperature `T` and mole-fraction vector `x`
of the right length, the mixture vapour pressure is the Raoult-law-style
linear mixing: the sum over components of `x_i` times component `i`'s pure
vapour pressure at `(p, T)`. -/
theorem pv_raoult_sum (m : liquidMixtureProperties) (p T : ℚ) (x : List ℚ)
    (h : x.length = m.size) :
    m.pv p T x =
      Except.ok ((List.zipWith (fun xi li => xi * li.pv p T) x m.properties).sum) :=
  guardDim_ok _ _ _ h

/-- Witness for C3: on the concrete two-component mixture `m2` at
`x = [1/2, 1/2]`, the mixture vapour pressure equals
`0.5 * pv_1(p,T) + 0.5 * pv_2(p,T)`. -/
theorem pv_raoult_sum_witness :
    ([1/2, 1/2] : List ℚ).length = m2.size ∧
      m2.pv 7 10 [1/2, 1/2] = Except.ok (lq1.pv 7 10 / 2 + lq2.pv 7 10 / 2) := by
  have h : ([1/2, 1/2] : List ℚ).length = m2.size := by norm_num [m2, size]
  refine ⟨h, (pv_raoult_sum m2 7 10 [1/2, 1/2] h).trans ?_⟩
  norm_num [m2, lq1, lq2]

/-- C5: for every mixing-rule operation of the aggregator (and the
boiling-point inversion), a composition vector whose length differs from the
number of components makes the call fail immediately with
`DimensionMismatchError`. -/
theorem dim_mismatch_all_ops (m : liquidMixtureProperties) (E : MathOps)
    (p T : ℚ) (x : List ℚ) (h : x.length ≠ m.size) :
    m.W x = Except.error .dimensionMismatch ∧
    m.Y x = Except.error .dimensionMismatch ∧
    m.X x = Except.error .dimensionMismatch ∧
    m.rho p T x = Except.error .dimensionMismatch ∧
    m.pv p T x = Except.error .dimensionMismatch ∧
    m.hl p T x = Except.error .dimensionMismatch ∧
    m.Cp p T x = Except.error .dimensionMismatch ∧
    m.sigma p T x = Except.error .dimensionMismatch ∧
    mu E m p T x = Except.error .dimensionMismatch ∧
    m.K p T x = Except.error .dimensionMismatch ∧
    m.D p T x = Except.error .dimensionMismatch ∧
    m.Tc x = Except.error .dimensionMismatch ∧
    m.Tpc x = Except.error .dimensionMismatch ∧
    m.Ppc x = Except.error .dimensionMismatch ∧
    m.Tpt x = Except.error .dimensionMismatch ∧
    m.omega x = Except.error .dimensionMismatch ∧
    m.pvInvert p x = Except.error .dimensionMismatch :=
  ⟨guardDim_err _ _ _ h, guardDim_err _ _ _ h, guardDim_err _ _ _ h,
    guardDim_err _ _ _ h, guardDim_err _ _ _ h, guardDim_err _ _ _ h,
    guardDim_err _ _ _ h, guardDim_err _ _ _ h, guardDim_err _ _ _ h,
    guardDim_err _ _ _ h, guardDim_err _ _ _ h, guardDim_err _ _ _ h,
    guardDim_err _ _ _ h, guardDim_err _ _ _ h, guardDim_err _ _ _ h,
    guardDim_err _ _ _ h, by rw [pvInvert, if_neg h]⟩

/-- Witness for C5: the empty composition vector has length `0 ≠ 1`, and on
the concrete single-component mixture `m1` every operation fails with
`DimensionMismatchError`. -/
theorem dim_mismatch_all_ops_witness :
    ([] : List ℚ).length ≠ m1.size ∧
      (m1.W [] = Except.error .dimensionMismatch ∧
       m1.Y [] = Except.error .dimensionMismatch ∧
       m1.X [] = Except.error .dimensionMismatch ∧
       m1.rho 7 10 [] = Except.error .dimensionMismatch ∧
       m1.pv 7 10 [] = Except.error .dimensionMismatch ∧
       m1.hl 7 10 [] = Except.error .dimensionMismatch ∧
       m1.Cp 7 10 [] = Except.error .dimensionMismatch ∧
       m1.sigma 7 10 [] = Except.error .dimensionMismatch ∧
       mu mathOpsId m1 7 10 [] = Except.error .dimensionMismatch ∧
       m1.K 7 10 [] = Except.error .dimensionMismatch ∧
       m1.D 7 10 [] = Except.error .dimensionMismatch ∧
       m1.Tc [] = Except.error .dimensionMismatch ∧
       m1.Tpc [] = Except.error .dimensionMismatch ∧
       m1.Ppc [] = Except.error .dimensionMismatch ∧
       m1.Tpt [] = Except.error .dimensionMismatch ∧
       m1.omega [] = Except.error .dimensionMismatch ∧
       m1.pvInvert 7 [] = Except.error .dimensionMismatch) := by
  have h : ([] : List ℚ).length ≠ m1.size := by norm_num [m1, size]
  exact ⟨h, dim_mismatch_all_ops m1 mathOpsId 7 10 [] h⟩

/-- C6: for every mole-fraction vector `x` of the right length, the mixture
critical temperature is the mole-fraction-weighted arithmetic mean of the
component critical temperatures, `sum_i x_i * Tc_i`. -/
theorem Tc_mole_weighted (m : liquidMixtureProperties) (x : List ℚ)
    (h : x.length = m.size) :
    m.Tc x = Except.ok ((List.zipWith (fun xi li => xi * li.Tc) x m.properties).sum) :=
  guardDim_ok _ _ _ h

/-- Witness for C6: on the concrete two-component mixture `m2` with critical
temperatures `2` and `4`, the mixture critical temperature at
`x = [1/2, 1/2]` is `3`. -/
theorem Tc_mole_weighted_witness :
    ([1/2, 1/2] : List ℚ).length = m2.size ∧ m2.Tc [1/2, 1/2] = Except.ok 3 := by
  have h : ([1/2, 1/2] : List ℚ).length = m2.size := by norm_num [m2, size]
  refine ⟨h, (Tc_mole_weighted m2 [1/2, 1/2] h).trans ?_⟩
  norm_num [m2, lq1, lq2]

/-- C9: for every aggregator, `clone()` is exactly the copy constructor: the
clone equals the copy-constructed value, and its component-name list and
properties list are equal to the original's. -/
theorem clone_eq_copy (m : liquidMixtureProperties) :
    m.clone = m.copyCtor ∧ m.clone.components = m.components ∧
      m.clone.properties = m.properties :=
  ⟨rfl, rfl, rfl⟩

theorem zipWith_zipWith_right {α β γ δ : Type} (f : α → β → γ) (g : γ → β → δ) :
    ∀ (xs : List α) (bs : List β),
      List.zipWith g (List.zipWith f xs bs) bs =
        List.zipWith (fun a b => g (f a b) b) xs bs
  | [], bs => by simp
  | a :: xs, [] => by simp
  | a :: xs, b :: bs => by
      simp [zipWith_zipWith_right f g xs bs]

theorem zipWith_congr_mem {α β γ : Type} (f g : α → β → γ) :
    ∀ (xs : List α) (bs : List β), (∀ b ∈ bs, ∀ a, f a b = g a b) →
      List.zipWith f xs bs = List.zipWith g xs bs
  | [], bs, _ => by simp
  | a :: xs, [], _ => by simp
  | a :: xs, b :: bs, h => by
      simp only [List.zipWith_cons_cons]
      rw [h b (by simp) a,
        zipWith_congr_mem f g xs bs (fun b' hb' a' => h b' (by simp [hb']) a')]

theorem zipWith_left_map {α β γ : Type} (f : α → γ) :
    ∀ (xs : List α) (bs : List β), xs.length ≤ bs.length →
      List.zipWith (fun a _ => f a) xs bs = xs.map f
  | [], bs, _ => by simp
  | a :: xs, [], h => by simp at h
  | a :: xs, b :: bs, h => by
      simp only [List.zipWith_cons_cons, List.map_cons]
      rw [zipWith_left_map f xs bs (by simpa using h)]

theorem sum_map_div (S : ℚ) :
    ∀ (xs : List ℚ), (xs.map (fun a => a / S)).sum = xs.sum / S
  | [] => by simp
  | a :: xs => by simp [sum_map_div S xs, add_div]

theorem zipWith_mulW_sum_nonneg :
    ∀ (xs : List ℚ) (ps : List liquidProperties),
      (∀ a ∈ xs, 0 ≤ a) → (∀ li ∈ ps, 0 < li.W) →
      0 ≤ (List.zipWith (fun xi li => xi * li.W) xs ps).sum
  | [], ps, _, _ => by simp
  | a :: xs, [], _, _ => by simp
  | a :: xs, li :: ps, hx, hw => by
      simp only [List.zipWith_cons_cons, List.sum_cons]
      have h1 : 0 ≤ a * li.W :=
        mul_nonneg (hx a (by simp)) (hw li (by simp)).le
      have h2 := zipWith_mulW_sum_nonneg xs ps
        (fun a' ha' => hx a' (by simp [ha'])) (fun l hl => hw l (by simp [hl]))
      linarith

theorem zipWith_mulW_sum_pos :
    ∀ (xs : List ℚ) (ps : List liquidProperties), xs.length ≤ ps.length →
      (∀ a ∈ xs, 0 ≤ a) → (∀ li ∈ ps, 0 < li.W) → 0 < xs.sum →
      0 < (List.zipWith (fun xi li => xi * li.W) xs ps).sum
  | [], ps, _, _, _, hs => by simp at hs
  | a :: xs, [], h, _, _, _ => by simp at h
  | a :: xs, li :: ps, h, hx, hw, hs => by
      simp only [List.zipWith_cons_cons, List.sum_cons]
      have hrest := zipWith_mulW_sum_nonneg xs ps
        (fun a' ha' => hx a' (by simp [ha'])) (fun l hl => hw l (by simp [hl]))
      have ha : 0 ≤ a := hx a (by simp)
      rcases lt_or_le 0 a with hlt | hle
      · have : 0 < a * li.W := mul_pos hlt (hw li (by simp))
        linarith
      · have ha0 : a = 0 := le_antisymm hle ha
        have hs' : 0 < xs.sum := by
          rw [List.sum_cons, ha0, zero_add] at hs
          exact hs
        have := zipWith_mulW_sum_pos xs ps (by simpa using h)
          (fun a' ha' => hx a' (by simp [ha'])) (fun l hl => hw l (by simp [hl])) hs'
        have h1 : (0:ℚ) ≤ a * li.W := by simp [ha0]
        linarith

namespace liquidMixtureProperties

theorem Wraw_pos (m : liquidMixtureProperties) (x : List ℚ)
    (hlen : x.length = m.properties.length)
    (hW : ∀ li ∈ m.properties, 0 < li.W) (hx : ∀ a ∈ x, 0 ≤ a)
    (hsum : x.sum = 1) : 0 < m.Wraw x :=
  zipWith_mulW_sum_pos x m.properties (le_of_eq hlen) hx hW (by rw [hsum]; norm_num)

theorem Xraw_Yraw (m : liquidMixtureProperties) (x : List ℚ)
    (hlen : x.length = m.properties.length)
    (hW : ∀ li ∈ m.properties, 0 < li.W) (hx : ∀ a ∈ x, 0 ≤ a)
    (hsum : x.sum = 1) : m.Xraw (m.Yraw x) = x := by
  have hS : 0 < m.Wraw x := m.Wraw_pos x hlen hW hx hsum
  have hS0 : m.Wraw x ≠ 0 := ne_of_gt hS
  have key1 : List.zipWith (fun yj lj => yj / lj.W) (m.Yraw x) m.properties
      = x.map (fun a => a / m.Wraw x) := by
    rw [Yraw, zipWith_zipWith_right]
    rw [zipWith_congr_mem _ (fun a (_ : liquidProperties) => a / m.Wraw x) x
      m.properties (fun li hli a => by
        have hw := ne_of_gt (hW li hli)
        field_simp
        ring)]
    exact zipWith_left_map _ x m.properties (le_of_eq hlen)
  have key2 : (List.zipWith (fun yj lj => yj / lj.W) (m.Yraw x) m.properties).sum
      = 1 / m.Wraw x := by rw [key1, sum_map_div, hsum]
  rw [Xraw]
  simp only [key2]
  rw [Yraw, zipWith_zipWith_right]
  rw [zipWith_congr_mem _ (fun a (_ : liquidProperties) => a) x m.properties
    (fun li hli a => by
      have hw := ne_of_gt (hW li hli)
      field_simp
      ring)]
  rw [zipWith_left_map _ x m.properties (le_of_eq hlen)]
  simp

end liquidMixtureProperties

/-- C4: for every mole-fraction vector `x` of the right length with
non-negative entries summing to `1` (over components of positive molecular
weight), converting to mass fractions and back reconstructs `x` exactly:
`Y(x)` succeeds, and `X(Y(x)) = x` — the two conversions are mutual inverses
on normalised vectors (exact in rational arithmetic, hence within any
floating-point tolerance). -/
theorem X_Y_roundtrip (m : liquidMixtureProperties) (x : List ℚ)
    (hlen : x.length = m.size) (hW : ∀ li ∈ m.properties, 0 < li.W)
    (hx : ∀ a ∈ x, 0 ≤ a) (hsum : x.sum = 1) :
    m.Y x = Except.ok (m.Yraw x) ∧ m.X (m.Yraw x) = Except.ok x := by
  have hlen' : x.length = m.properties.length := by
    rw [hlen, size, m.sameLen]
  refine ⟨guardDim_ok _ _ _ hlen, ?_⟩
  have hy : (m.Yraw x).length = m.size := by
    rw [Yraw, List.length_zipWith, ← hlen', min_self, hlen]
  rw [X, guardDim_ok _ _ _ hy, m.Xraw_Yraw x hlen' hW hx hsum]

/-- Witness for C4: on the concrete two-component mixture `m2` at
`x = [1/2, 1/2]`, the mole-to-mass conversion succeeds and converting back
returns exactly `[1/2, 1/2]`. -/
theorem X_Y_roundtrip_witness :
    ([1/2, 1/2] : List ℚ).length = m2.size ∧
      (∀ li ∈ m2.properties, 0 < li.W) ∧
      (∀ a ∈ ([1/2, 1/2] : List ℚ), 0 ≤ a) ∧
      ([1/2, 1/2] : List ℚ).sum = 1 ∧
      (m2.Y [1/2, 1/2] = Except.ok (m2.Yraw [1/2, 1/2]) ∧
        m2.X (m2.Yraw [1/2, 1/2]) = Except.ok [1/2, 1/2]) := by
  have h1 : ([1/2, 1/2] : List ℚ).length = m2.size := by norm_num [m2, size]
  have h2 : ∀ li ∈ m2.properties, 0 < li.W := by
    simp [m2, lq1, lq2]
  have h3 : ∀ a ∈ ([1/2, 1/2] : List ℚ), 0 ≤ a := by norm_num
  have h4 : ([1/2, 1/2] : List ℚ).sum = 1 := by norm_num
  exact ⟨h1, h2, h3, h4, X_Y_roundtrip m2 [1/2, 1/2] h1 h2 h3 h4⟩

/-- C7: for a single-component mixture (`N = 1`) with composition `x = [1]`,
every mixing-rule output of the aggregator (`W`, `Y`, `X`, `rho`, `pv`,
`hl`, `Cp`, `sigma`, `mu`, `K`, `D`, `Tc`, `Tpc`, `Ppc`, `Tpt`, `omega`)
equals the corresponding output of the single pure-component model at the
same `(p, T)` (for `Y` and `X`, the trivial fraction vector `[1]`).  The
hypotheses are the physical side conditions: non-zero molecular weight and
conductivity, the exp/log round-trip law at the component's viscosity, and
critical data consistent with `Pc = RR * Zc * Tc / Vc`. -/
theorem single_component_identity (l : liquidProperties) (E : MathOps) (p T : ℚ)
    (hW : l.W ≠ 0) (hK : l.K p T ≠ 0)
    (hmu : E.exp (E.log (l.mu p T)) = l.mu p T)
    (hPc : RR * l.Zc * l.Tc / l.Vc = l.Pc) :
    (single l).W [1] = Except.ok l.W ∧
    (single l).Y [1] = Except.ok [1] ∧
    (single l).X [1] = Except.ok [1] ∧
    (single l).rho p T [1] = Except.ok (l.rho p T) ∧
    (single l).pv p T [1] = Except.ok (l.pv p T) ∧
    (single l).hl p T [1] = Except.ok (l.hl p T) ∧
    (single l).Cp p T [1] = Except.ok (l.Cp p T) ∧
    (single l).sigma p T [1] = Except.ok (l.sigma p T) ∧
    mu E (single l) p T [1] = Except.ok (l.mu p T) ∧
    (single l).K p T [1] = Except.ok (l.K p T) ∧
    (single l).D p T [1] = Except.ok (l.D p T) ∧
    (single l).Tc [1] = Except.ok l.Tc ∧
    (single l).Tpc [1] = Except.ok l.Tc ∧
    (single l).Ppc [1] = Except.ok l.Pc ∧
    (single l).Tpt [1] = Except.ok l.Tt ∧
    (single l).omega [1] = Except.ok l.omega := by
  refine ⟨?_, ?_, ?_, ?_, ?_, ?_, ?_, ?_, ?_, ?_, ?_, ?_, ?_, ?_, ?_, ?_⟩
  · simp [liquidMixtureProperties.W, guardDim, single, size, Wraw, molarSum]
  · simp [Y, guardDim, single, size, Yraw, Wraw, molarSum, div_self hW]
  · simp [X, guardDim, single, size, Xraw, hW]
  · simp [rho, guardDim, single, size, rhoRaw, Wraw, molarSum]
    rw [div_div_eq_mul_div, mul_comm, mul_div_assoc, div_self hW, mul_one]
  · simp [pv, guardDim, single, size, pvRaw, molarSum]
  · simp [hl, guardDim, single, size, hlRaw, Yraw, Wraw, molarSum, div_self hW]
  · simp [Cp, guardDim, single, size, CpRaw, Yraw, Wraw, molarSum, div_self hW]
  · simp [sigma, guardDim, single, size, sigmaRaw, molarSum]
  · simp [mu, guardDim, single, size, muRaw, hmu]
  · simp [K, guardDim, single, size, Kraw]
    field_simp
    ring
  · simp [D, guardDim, single, size, Draw, molarSum]
  · simp [Tc, guardDim, single, size, TcRaw, molarSum]
  · simp [Tpc, guardDim, single, size, TpcRaw, molarSum]
  · simp [Ppc, guardDim, single, size, PpcRaw, TpcRaw, molarSum, hPc]
  · simp [Tpt, guardDim, single, size, TptRaw, molarSum]
  · simp [omega, guardDim, single, size, omegaRaw, molarSum]

/-- Witness for C7: the concrete pure component `lq1` (whose critical data
satisfy the consistency law) together with the identity exp/log pair; every
aggregator output on the single-component mixture over `lq1` at `x = [1]`
equals the pure component's own output. -/
theorem single_component_identity_witness :
    lq1.W ≠ 0 ∧ lq1.K 7 10 ≠ 0 ∧
      mathOpsId.exp (mathOpsId.log (lq1.mu 7 10)) = lq1.mu 7 10 ∧
      RR * lq1.Zc * lq1.Tc / lq1.Vc = lq1.Pc ∧
      ((single lq1).W [1] = Except.ok lq1.W ∧
       (single lq1).Y [1] = Except.ok [1] ∧
       (single lq1).X [1] = Except.ok [1] ∧
       (single lq1).rho 7 10 [1] = Except.ok (lq1.rho 7 10) ∧
       (single lq1).pv 7 10 [1] = Except.ok (lq1.pv 7 10) ∧
       (single lq1).hl 7 10 [1] = Except.ok (lq1.hl 7 10) ∧
       (single lq1).Cp 7 10 [1] = Except.ok (lq1.Cp 7 10) ∧
       (single lq1).sigma 7 10 [1] = Except.ok (lq1.sigma 7 10) ∧
       mu mathOpsId (single lq1) 7 10 [1] = Except.ok (lq1.mu 7 10) ∧
       (single lq1).K 7 10 [1] = Except.ok (lq1.K 7 10) ∧
       (single lq1).D 7 10 [1] = Except.ok (lq1.D 7 10) ∧
       (single lq1).Tc [1] = Except.ok lq1.Tc ∧
       (single lq1).Tpc [1] = Except.ok lq1.Tc ∧
       (single lq1).Ppc [1] = Except.ok lq1.Pc ∧
       (single lq1).Tpt [1] = Except.ok lq1.Tt ∧
       (single lq1).omega [1] = Except.ok lq1.omega) := by
  have h1 : lq1.W ≠ 0 := by norm_num [lq1]
  have h2 : lq1.K 7 10 ≠ 0 := by norm_num [lq1]
  have h3 : mathOpsId.exp (mathOpsId.log (lq1.mu 7 10)) = lq1.mu 7 10 := rfl
  have h4 : RR * lq1.Zc * lq1.Tc / lq1.Vc = lq1.Pc := by norm_num [RR, lq1]
  exact ⟨h1, h2, h3, h4, single_component_identity lq1 mathOpsId 7 10 h1 h2 h3 h4⟩

/-- C8: for every two-component mixture whose component densities at `(p, T)`
satisfy `rho_1 < rho_2` (both positive, molecular weights positive), and
every valid composition `[a, b]` (non-negative, `a + b = 1`), the mixture
density lies between `rho_1` and `rho_2`. -/
theorem rho_between (l1 l2 : liquidProperties) (p T a b : ℚ)
    (hW1 : 0 < l1.W) (hW2 : 0 < l2.W)
    (hr1 : 0 < l1.rho p T) (hr2 : 0 < l2.rho p T)
    (hlt : l1.rho p T < l2.rho p T)
    (ha : 0 ≤ a) (hb : 0 ≤ b) (hab : a + b = 1) :
    ∃ r, (two l1 l2).rho p T [a, b] = Except.ok r ∧
      l1.rho p T ≤ r ∧ r ≤ l2.rho p T := by
  have hbody : (two l1 l2).rhoRaw p T [a, b] =
      (a * l1.W + b * l2.W) /
        (a * l1.W / l1.rho p T + b * l2.W / l2.rho p T) := by
    simp [rhoRaw, Wraw, molarSum, two]
  set r1 := l1.rho p T with hr1def
  set r2 := l2.rho p T with hr2def
  set s := a * l1.W with hsdef
  set t := b * l2.W with htdef
  have hs : 0 ≤ s := mul_nonneg ha hW1.le
  have ht : 0 ≤ t := mul_nonneg hb hW2.le
  have hst : 0 < s + t := by
    rcases eq_or_lt_of_le ha with he | hlt'
    · have hb1 : b = 1 := by linarith
      have hs0 : s = 0 := by rw [hsdef, ← he, zero_mul]
      have ht1 : t = l2.W := by rw [htdef, hb1, one_mul]
      rw [hs0, ht1, zero_add]
      exact hW2
    · have : 0 < s := mul_pos hlt' hW1
      linarith
  have hd : 0 < s / r1 + t / r2 := by
    rcases lt_or_le 0 s with hs' | hs'
    · have h1 : 0 < s / r1 := div_pos hs' hr1
      have h2 : 0 ≤ t / r2 := div_nonneg ht hr2.le
      linarith
    · have hs0 : s = 0 := le_antisymm hs' hs
      have ht' : 0 < t := by rw [hs0, zero_add] at hst; exact hst
      have h2 : 0 < t / r2 := div_pos ht' hr2
      have h1 : s / r1 = 0 := by rw [hs0, zero_div]
      linarith
  refine ⟨(s + t) / (s / r1 + t / r2), ?_, ?_, ?_⟩
  · rw [rho, guardDim_ok _ _ _ (by norm_num [two, size]), hbody]
  · rw [le_div_iff₀ hd]
    have e : r1 * (s / r1 + t / r2) = s + r1 * t / r2 := by
      field_simp
      ring
    rw [e]
    have hk : r1 * t / r2 ≤ t := by
      rw [div_le_iff₀ hr2]
      nlinarith
    linarith
  · rw [div_le_iff₀ hd]
    have e : r2 * (s / r1 + t / r2) = r2 * s / r1 + t := by
      field_simp
      ring
    rw [e]
    have hk : s ≤ r2 * s / r1 := by
      rw [le_div_iff₀ hr1]
      nlinarith
    linarith

/-- Witness for C8: on the concrete pair `lq1` (density 3) and `lq2`
(density 5) at `x = [1/2, 1/2]`, the mixture density exists and lies
between 3 and 5. -/
theorem rho_between_witness :
    (0 : ℚ) < lq1.W ∧ (0 : ℚ) < lq2.W ∧ (0 : ℚ) < lq1.rho 7 10 ∧
      (0 : ℚ) < lq2.rho 7 10 ∧ lq1.rho 7 10 < lq2.rho 7 10 ∧
      (0 : ℚ) ≤ 1/2 ∧ (0 : ℚ) ≤ 1/2 ∧ (1/2 : ℚ) + 1/2 = 1 ∧
      ∃ r, (two lq1 lq2).rho 7 10 [1/2, 1/2] = Except.ok r ∧
        lq1.rho 7 10 ≤ r ∧ r ≤ lq2.rho 7 10 := by
  refine ⟨?_, ?_, ?_, ?_, ?_, ?_, ?_, ?_, ?_⟩
  · norm_num [lq1]
  · norm_num [lq2]
  · norm_num [lq1]
  · norm_num [lq2]
  · norm_num [lq1, lq2]
  · norm_num
  · norm_num
  · norm_num
  · exact rho_between lq1 lq2 7 10 (1/2) (1/2) (by norm_num [lq1])
      (by norm_num [lq2]) (by norm_num [lq1]) (by norm_num [lq2])
      (by norm_num [lq1, lq2]) (by norm_num) (by norm_num) (by norm_num)

end OpenFOAM
